import Mathlib

/-!
Verification of the Tic-Tac-Toe game engine of `src/index.js`.

The engine keeps one game per chat in the in-memory table `ticTacToeGames`
(keyed by chat id; chats are fully independent, so we model the entry of a
single conversation as an `Option GameState`).  Every state change performed
by `handleTicTacToe` (src/index.js lines 291-448) is embedded below as a pure
function from the current entry, the acting user and the argument list to the
new entry plus the list of transport operations (send / edit / delete) the
handler performs.  Transport results that the handler consumes (the message id
assigned to a newly sent message, whether editing the stored message succeeds)
are supplied through an `Env` record.

Case folding (`toLowerCase`) is modelled by `jsToLower` below, the ASCII
case map, which agrees with JavaScript on the commands and usernames the bot
compares; `startsWith('@')` and `slice(1)` are likewise modelled directly on
the character list.
`parseInt` is modelled by `jsParseInt` below, following the ECMAScript
algorithm (leading whitespace, optional sign, `0x`/`0X` hexadecimal escape,
longest digit prefix); the result is an exact integer where JavaScript returns
a float, which agrees with the source on every comparison against 1..9 that
the handler performs.
-/

namespace TTTBot

/-- A player mark, the JS strings `'X'` and `'O'`. -/
inductive Mark
  | X
  | O
deriving DecidableEq, Repr

/-- The mark of the other player. -/
def Mark.other : Mark → Mark
  | .X => .O
  | .O => .X

/-- A board cell: `null` or a mark, as in `Array(9).fill(null)`. -/
abbrev Cell := Option Mark

/-- The board, a sequence of 9 cells. -/
abbrev Board := List Cell

/-- `board[i]` with JS out-of-range/`null` semantics (both falsy). -/
def cellAt (b : Board) (i : Nat) : Cell := b.getD i none

/-- Result of `checkTicTacToeWin`: the JS strings `'X'`/`'O'`/`'draw'`. -/
inductive WinResult
  | winner (m : Mark)
  | draw
deriving DecidableEq, Repr

/-- The 8 win lines of src/index.js lines 277-281. -/
def ticTacToeLines : List (Nat × Nat × Nat) :=
  [(0, 1, 2), (3, 4, 5), (6, 7, 8),
   (0, 3, 6), (1, 4, 7), (2, 5, 8),
   (0, 4, 8), (2, 4, 6)]

/-- One iteration of the loop body of `checkTicTacToeWin`:
`board[l0] && board[l0] === board[l1] && board[l0] === board[l2]`. -/
def lineWinner (b : Board) (l : Nat × Nat × Nat) : Option Mark :=
  match cellAt b l.1 with
  | some m =>
      if cellAt b l.2.1 = some m ∧ cellAt b l.2.2 = some m then some m else none
  | none => none

/-- `checkTicTacToeWin` (src/index.js lines 276-289): first winning line wins,
otherwise a full board is a draw, otherwise no result. -/
def checkTicTacToeWin (b : Board) : Option WinResult :=
  match ticTacToeLines.findSome? (lineWinner b) with
  | some m => some (.winner m)
  | none => if b.all (fun c => c.isSome) then some .draw else none

/-- Spec-side vocabulary: the board holds three cells equal to mark `m` along
one of the 8 fixed triples. -/
def hasTriple (b : Board) (m : Mark) : Bool :=
  ticTacToeLines.any fun l =>
    cellAt b l.1 = some m && cellAt b l.2.1 = some m && cellAt b l.2.2 = some m

/-- Game status: the JS strings `'pending'` / `'active'` / `'ended'`. -/
inductive GStatus
  | pending
  | active
  | ended
deriving DecidableEq, Repr

/-- One entry of the `players` map: `{ id, name }`; `id` is `null` for the
challenged player until acceptance. -/
structure PlayerSlot where
  id : Option Nat
  name : String
deriving DecidableEq, Repr

/-- One game record of the `ticTacToeGames` table (src/index.js line 262). -/
structure GameState where
  board : Board
  currentPlayer : Mark
  playerX : PlayerSlot
  playerO : PlayerSlot
  status : GStatus
  messageId : Option Nat
deriving DecidableEq, Repr

/-- `game.players[m]`. -/
def slotOf (g : GameState) (m : Mark) : PlayerSlot :=
  match m with
  | .X => g.playerX
  | .O => g.playerO

/-- Transport responses consumed by one handler invocation: the message id the
platform assigns to a newly sent message, and whether editing the stored
message succeeds (the handler falls back to a fresh send when it does not). -/
structure Env where
  freshId : Nat
  editOk : Bool
deriving DecidableEq, Repr

/-- Outcome line appended to the board render after a move. -/
inductive MoveOutcome
  | winnerIs (m : Mark) (name : String)
  | drawGame
  | nextTurn (m : Mark) (name : String)
deriving DecidableEq, Repr

/-- The distinct user-visible payloads produced by `handleTicTacToe`, one per
`sendMessage`/`editMessageText` site, carrying the data interpolated into the
message text. -/
inductive Reply
  | gameAlreadyInProgress
  | mentionOpponent
  | cannotPlaySelf
  | invitation (opponent challenger : String)
  | noPendingGame
  | notTheChallengedPlayer
  | challengerCannotAccept
  | gameStarted (board : Board) (turnName : String) (m : Mark)
  | noPendingDecline
  | declineNotice (decliner : String)
  | notPartOfChallenge
  | noActiveGame
  | notYourTurn
  | invalidMove
  | moveRender (board : Board) (o : MoveOutcome)
  | quitNotice (quitter : String)
  | onlyPlayersCanEnd
  | statusRender (board : Board) (turnName : String) (m : Mark)
  | pendingNotice (opponent : String)
deriving DecidableEq, Repr

/-- One transport operation performed by the handler. -/
inductive OutEvent
  | send (r : Reply)
  | edit (handle : Nat) (r : Reply)
  | deleteMsg (handle : Nat)
deriving DecidableEq, Repr

/-- The edit-preferred render used by the move and status branches
(src/index.js lines 402-413 and 434-444): edit the stored message when one is
stored and editing succeeds, otherwise send a new message and store its id.
Returns the new stored message id and the transport operations. -/
def renderUpdate (env : Env) (messageId : Option Nat) (r : Reply) :
    Option Nat × List OutEvent :=
  match messageId with
  | some m => if env.editOk then (some m, [.edit m r]) else (some env.freshId, [.send r])
  | none => (some env.freshId, [.send r])

/-- The best-effort deletion of the stored message (failures are swallowed, so
only the attempt is recorded). -/
def deleteStored (messageId : Option Nat) : List OutEvent :=
  match messageId with
  | some m => [.deleteMsg m]
  | none => []

/-- `c.toLowerCase()` for one character: JS maps `A`-`Z` to `a`-`z` and
leaves every other character the bot compares unchanged. -/
def jsCharLower (c : Char) : Char :=
  if 'A' ≤ c ∧ c ≤ 'Z' then Char.ofNat (c.toNat + 32) else c

/-- `s.toLowerCase()` on the ASCII range. -/
def jsToLower (s : String) : String := ⟨s.data.map jsCharLower⟩

/-- `s.startsWith('@')`. -/
def startsWithAtSign (s : String) : Bool :=
  match s.data with
  | c :: _ => c = '@'
  | [] => false

/-- `s.slice(1)`. -/
def jsDrop1 (s : String) : String := ⟨s.data.drop 1⟩

/-- `args[0] ? args[0].toLowerCase() : null` (src/index.js line 292); the
empty string is falsy in JS. -/
def subCommandOf (args : List String) : Option String :=
  match args.head? with
  | some s => if s = "" then none else some (jsToLower s)
  | none => none

/-- `subCommand === 'start' || (subCommand && subCommand.startsWith('@'))`. -/
def isStartSub : Option String → Bool
  | some s => s = "start" || startsWithAtSign s
  | none => false

/-- `game && game.status !== 'ended'`: a non-ended game is stored. -/
def notEnded : Option GameState → Bool
  | some g => g.status != GStatus.ended
  | none => false

/-- Digit value of a character under the given radix (ECMAScript parseInt
digit sets: `0-9`, `a-z`, `A-Z`). -/
def digitVal (radix : Nat) (c : Char) : Option Nat :=
  let v : Option Nat :=
    if '0' ≤ c ∧ c ≤ '9' then some (c.toNat - '0'.toNat)
    else if 'a' ≤ c ∧ c ≤ 'z' then some (c.toNat - 'a'.toNat + 10)
    else if 'A' ≤ c ∧ c ≤ 'Z' then some (c.toNat - 'A'.toNat + 10)
    else none
  match v with
  | some n => if n < radix then some n else none
  | none => none

/-- The sign step of ECMAScript `parseInt`: a leading `-` makes the result
negative, a leading `+` is skipped. -/
def stripSign (cs : List Char) : Bool × List Char :=
  match cs with
  | c :: rest =>
      if c = '-' then (true, rest)
      else if c = '+' then (false, rest)
      else (false, c :: rest)
  | [] => (false, [])

/-- The radix-detection step of ECMAScript `parseInt` with no radix argument:
a leading `0x`/`0X` switches to hexadecimal, anything else stays decimal. -/
def stripHexMark (cs : List Char) : Nat × List Char :=
  match cs with
  | c0 :: c1 :: rest =>
      if c0 = '0' ∧ (c1 = 'x' ∨ c1 = 'X') then (16, rest)
      else (10, c0 :: c1 :: rest)
  | _ => (10, cs)

/-- ECMAScript `parseInt(s)` with no radix argument: skip leading whitespace,
read an optional sign, switch to hexadecimal after a `0x`/`0X` prefix, then
take the longest prefix of digits of the radix; no digits means `NaN`
(modelled as `none`).  The value is exact where JS rounds to a float; both
sides agree on every comparison against 1..9 that the handler performs. -/
def jsParseInt (s : String) : Option Int :=
  let cs := s.data.dropWhile fun c => c.isWhitespace
  let signed := stripSign cs
  let radixed := stripHexMark signed.2
  let digits := radixed.2.takeWhile fun c => (digitVal radixed.1 c).isSome
  if digits.isEmpty then none
  else
    let v : Nat := digits.foldl (fun a c => a * radixed.1 + (digitVal radixed.1 c).getD 0) 0
    some (if signed.1 then -(v : Int) else (v : Int))

/-- `subCommand.startsWith('@') ? subCommand : (args[1] && args[1].startsWith('@') ? args[1] : null)`
(src/index.js line 300); `sub` is already lowercased, `args[1]` is raw. -/
def opponentMentionOf (sub : String) (args : List String) : Option String :=
  if startsWithAtSign sub then some sub
  else
    match args.get? 1 with
    | some a => if startsWithAtSign a then some a else none
    | none => none

/-- The challenge-issuing branch (src/index.js lines 295-325).  `sub` is the
lowercased sub-command; the dispatcher enters this branch only when no
non-ended game is stored, so the first guard is the source's (dead) inner
re-check of line 296. -/
def handleStart (env : Env) (game? : Option GameState) (userId : Nat)
    (userName : String) (args : List String) (sub : String) :
    Option GameState × List OutEvent :=
  if notEnded game? then (game?, [.send .gameAlreadyInProgress])
  else
    match opponentMentionOf sub args with
    | none => (game?, [.send .mentionOpponent])
    | some mention =>
        let opponentUsername := jsDrop1 mention
        if jsToLower opponentUsername = jsToLower userName then
          (game?, [.send .cannotPlaySelf])
        else
          let g : GameState :=
            { board := List.replicate 9 none
              currentPlayer := .X
              playerX := { id := some userId, name := userName }
              playerO := { id := none, name := opponentUsername }
              status := .pending
              messageId := some env.freshId }
          (some g, [.send (.invitation opponentUsername userName)])

/-- The `accept` branch (src/index.js lines 327-349). -/
def handleAccept (env : Env) (game? : Option GameState) (userId : Nat)
    (userName : String) : Option GameState × List OutEvent :=
  match game? with
  | none => (game?, [.send .noPendingGame])
  | some g =>
      if g.status ≠ .pending then (game?, [.send .noPendingGame])
      else if jsToLower g.playerO.name ≠ jsToLower userName then
        (game?, [.send .notTheChallengedPlayer])
      else if g.playerX.id = some userId then
        (game?, [.send .challengerCannotAccept])
      else
        let g1 : GameState :=
          { g with
            playerO := { g.playerO with id := some userId }
            status := .active
            messageId := some env.freshId }
        (some g1,
          [.send (.gameStarted g1.board (slotOf g1 g1.currentPlayer).name g1.currentPlayer)]
            ++ deleteStored g.messageId)

/-- The `decline` branch (src/index.js lines 351-364). -/
def handleDecline (game? : Option GameState) (userId : Nat) (userName : String) :
    Option GameState × List OutEvent :=
  match game? with
  | none => (game?, [.send .noPendingDecline])
  | some g =>
      if g.status ≠ .pending then (game?, [.send .noPendingDecline])
      else if jsToLower g.playerO.name = jsToLower userName ∨ g.playerX.id = some userId then
        (none, [.send (.declineNotice userName)] ++ deleteStored g.messageId)
      else (game?, [.send .notPartOfChallenge])

/-- `parseInt(args[1])` (src/index.js line 377); `parseInt` of a missing
argument (`undefined`) is `NaN`. -/
def parsedCell (args : List String) : Option Int :=
  match args.get? 1 with
  | some s => jsParseInt s
  | none => none

/-- The outcome text data for a terminal move (win line of src/index.js line
391, draw line 389). -/
def winOutcome (g : GameState) (w : WinResult) : MoveOutcome :=
  match w with
  | .winner m => .winnerIs m (slotOf g m).name
  | .draw => .drawGame

/-- The `move` branch (src/index.js lines 372-417); the dispatcher enters it
only for an active game. -/
def handleMove (env : Env) (g : GameState) (userId : Nat) (args : List String) :
    Option GameState × List OutEvent :=
  if (slotOf g g.currentPlayer).id ≠ some userId then (some g, [.send .notYourTurn])
  else
    match parsedCell args with
    | none => (some g, [.send .invalidMove])
    | some v =>
        if v < 1 ∨ 9 < v then (some g, [.send .invalidMove])
        else
          let idx := v.toNat - 1
          if (cellAt g.board idx).isSome then (some g, [.send .invalidMove])
          else
            let board1 := g.board.set idx (some g.currentPlayer)
            match checkTicTacToeWin board1 with
            | some w =>
                (none, (renderUpdate env g.messageId
                  (.moveRender board1 (winOutcome g w))).2)
            | none =>
                let next := g.currentPlayer.other
                let content := Reply.moveRender board1 (.nextTurn next (slotOf g next).name)
                let rendered := renderUpdate env g.messageId content
                (some { g with board := board1, currentPlayer := next,
                               messageId := rendered.1 },
                  rendered.2)

/-- `game.players.O.id && game.players.O.id === userId` (src/index.js line
419): the O slot is bound to this user; a JS id `0` is falsy. -/
def oSlotBoundTo (oid : Option Nat) (userId : Nat) : Bool :=
  match oid with
  | some i => i ≠ 0 && i = userId
  | none => false

def handleQuit (g : GameState) (userId : Nat) (userName : String) :
    Option GameState × List OutEvent :=
  if g.playerX.id = some userId ∨ oSlotBoundTo g.playerO.id userId then
    (none, [.send (.quitNotice userName)] ++ deleteStored g.messageId)
  else (some g, [.send .onlyPlayersCanEnd])

/-- The trailing status render (src/index.js lines 429-447); the dispatcher
enters it only for an active game, which makes the `pending` arm (lines
445-447) unreachable — it is kept to mirror the source. -/
def handleStatus (env : Env) (g : GameState) : Option GameState × List OutEvent :=
  if g.status = .active then
    let r := Reply.statusRender g.board (slotOf g g.currentPlayer).name g.currentPlayer
    let rendered := renderUpdate env g.messageId r
    (some { g with messageId := rendered.1 }, rendered.2)
  else if g.status = .pending then
    (some g, [.send (.pendingNotice g.playerO.name)])
  else (some g, [])

/-- `handleTicTacToe(chatId, userId, userName, args, msg)` (src/index.js
lines 291-448), restricted to the `ticTacToeGames` entry of the one chat the
command addresses.  Returns the new entry of the table and the transport
operations performed. -/
def handleTicTacToe (env : Env) (game? : Option GameState) (userId : Nat)
    (userName : String) (args : List String) : Option GameState × List OutEvent :=
  let sub := subCommandOf args
  if isStartSub sub ∧ ¬ notEnded game? then
    handleStart env game? userId userName args (sub.getD "")
  else if sub = some "accept" then handleAccept env game? userId userName
  else if sub = some "decline" then handleDecline game? userId userName
  else
    match game? with
    | none => (none, [.send .noActiveGame])
    | some g =>
        if g.status ≠ .active then (some g, [.send .noActiveGame])
        else if sub = some "move" then handleMove env g userId args
        else if sub = some "quit" ∨ sub = some "end" then handleQuit g userId userName
        else handleStatus env g

/-- Number of cells holding mark `m`. -/
def countM (b : Board) (m : Mark) : Nat := b.count (some m)

/-- The inductive invariant of one stored game: the board has 9 cells; the
record is never stored as ended (terminal records are deleted in the same
invocation); a pending board is untouched with X to move; and X has played
exactly one move more than O precisely when it is O's turn. -/
def GoodState (g : GameState) : Prop :=
  g.board.length = 9 ∧
  g.status ≠ .ended ∧
  (g.status = .pending → g.board = List.replicate 9 none) ∧
  (g.currentPlayer = .X → countM g.board .X = countM g.board .O) ∧
  (g.currentPlayer = .O → countM g.board .X = countM g.board .O + 1) ∧
  (g.status = .pending → g.currentPlayer = .X)

/-- The states of one conversation's table entry reachable from the empty
table by handler invocations. -/
inductive TTTReachable : Option GameState → Prop
  | init : TTTReachable none
  | step (s : Option GameState) (env : Env) (uid : Nat) (un : String)
      (args : List String) : TTTReachable s →
      TTTReachable (handleTicTacToe env s uid un args).1

/-! ### Concrete fixtures for witnesses and counterexamples -/

/-- Transport oracle used in the concrete scenarios: fresh sends get message
id 99 and editing the stored message succeeds. -/
def envW : Env := { freshId := 99, editOk := true }

/-- A full board with an X triple in the top row and no O triple. -/
def boardFullXWins : Board :=
  [some .X, some .X, some .X,
   some .O, some .O, some .X,
   some .O, some .X, some .O]

/-- A pending challenge: alice (id 1) has challenged bob; bob's id is still
unbound. -/
def gamePending : GameState :=
  { board := List.replicate 9 none
    currentPlayer := .X
    playerX := { id := some 1, name := "alice" }
    playerO := { id := none, name := "bob" }
    status := .pending
    messageId := some 10 }

/-- The running game after bob (id 2) accepted the challenge. -/
def gameActive : GameState :=
  { gamePending with
    playerO := { id := some 2, name := "bob" }
    status := .active }

/-- The challenge record as created by `handleTicTacToe envW none 1 "alice"
["@bob"]`. -/
def gameCreated : GameState :=
  { board := List.replicate 9 none
    currentPlayer := .X
    playerX := { id := some 1, name := "alice" }
    playerO := { id := none, name := "bob" }
    status := .pending
    messageId := some 99 }

/-- `gameActive` after alice played cell 5 (index 4). -/
def gameMoved : GameState :=
  { gameActive with
    board := [none, none, none, none, some .X, none, none, none, none]
    currentPlayer := .O }

/-- An active game one X move (cell 3) away from a win on the top row. -/
def gameNearWin : GameState :=
  { gameActive with
    board := [some .X, some .X, none, some .O, some .O, none, none, none, none] }

/-! ### Helper lemmas about the win evaluator -/

lemma Mark.eq_or_eq_other (m m' : Mark) : m' = m ∨ m' = m.other := by
  cases m <;> cases m' <;> simp [Mark.other]

lemma lineWinner_eq_some {b : Board} {l : Nat × Nat × Nat} {m : Mark} :
    lineWinner b l = some m ↔
      cellAt b l.1 = some m ∧ cellAt b l.2.1 = some m ∧ cellAt b l.2.2 = some m := by
  unfold lineWinner
  cases h : cellAt b l.1 with
  | none => simp [h]
  | some m0 =>
      dsimp only
      by_cases h2 : cellAt b l.2.1 = some m0 ∧ cellAt b l.2.2 = some m0
      · rw [if_pos h2]
        constructor
        · intro hm
          obtain rfl : m0 = m := by simpa using hm
          exact ⟨rfl, h2.1, h2.2⟩
        · exact fun hc => hc.1
      · rw [if_neg h2]
        constructor
        · intro hc; exact Option.noConfusion hc
        · rintro ⟨h1, h21, h22⟩
          obtain rfl : m0 = m := by simpa using h1
          exact absurd ⟨h21, h22⟩ h2

lemma hasTriple_iff {b : Board} {m : Mark} :
    hasTriple b m = true ↔
      ∃ l ∈ ticTacToeLines,
        cellAt b l.1 = some m ∧ cellAt b l.2.1 = some m ∧ cellAt b l.2.2 = some m := by
  unfold hasTriple
  simp [List.any_eq_true, and_assoc]

lemma hasTriple_of_lineWinner {b : Board} {l : Nat × Nat × Nat} {m : Mark}
    (hl : l ∈ ticTacToeLines) (h : lineWinner b l = some m) : hasTriple b m = true :=
  hasTriple_iff.mpr ⟨l, hl, lineWinner_eq_some.mp h⟩

lemma cellAt_eq_getElem {b : Board} {i : Nat} (h : i < b.length) : cellAt b i = b[i] := by
  simp [cellAt, List.getD_eq_getElem?_getD, List.getElem?_eq_getElem h]

/-- C1 under the hood: if mark `m` completes a triple and the other mark does
not, the evaluator reports `m` as the winner (whether or not the board is
full). -/
lemma checkWin_of_triple {b : Board} {m : Mark}
    (hm : hasTriple b m = true) (hother : hasTriple b m.other = false) :
    checkTicTacToeWin b = some (.winner m) := by
  obtain ⟨l, hl, hc⟩ := hasTriple_iff.mp hm
  have hlw : lineWinner b l = some m := lineWinner_eq_some.mpr hc
  cases hfs : ticTacToeLines.findSome? (lineWinner b) with
  | none =>
      have hn := List.findSome?_eq_none_iff.mp hfs l hl
      rw [hn] at hlw
      exact Option.noConfusion hlw
  | some m0 =>
      obtain ⟨l0, hl0, hlw0⟩ := List.exists_of_findSome?_eq_some hfs
      have hm0 : hasTriple b m0 = true := hasTriple_of_lineWinner hl0 hlw0
      rcases Mark.eq_or_eq_other m m0 with h | h
      · subst h; simp [checkTicTacToeWin, hfs]
      · rw [h] at hm0
        rw [hm0] at hother
        cases hother

/-- C1 under the hood: with no completed triple and an empty cell among the
nine, the evaluator reports nothing. -/
lemma checkWin_of_no_triple {b : Board} (hb : b.length = 9)
    (hx : hasTriple b Mark.X = false) (ho : hasTriple b Mark.O = false)
    (he : ∃ i, i < 9 ∧ cellAt b i = none) : checkTicTacToeWin b = none := by
  have hfs : ticTacToeLines.findSome? (lineWinner b) = none := by
    rw [List.findSome?_eq_none_iff]
    intro l hl
    cases hlw : lineWinner b l with
    | none => rfl
    | some m0 =>
        have hm0 : hasTriple b m0 = true := hasTriple_of_lineWinner hl hlw
        cases m0
        · rw [hm0] at hx; cases hx
        · rw [hm0] at ho; cases ho
  obtain ⟨i, hi9, hci⟩ := he
  have hi : i < b.length := hb ▸ hi9
  have hmem : b[i] ∈ b := List.getElem_mem hi
  have hfull : b.all (fun c => c.isSome) = false := by
    rw [Bool.eq_false_iff]
    intro hall
    have := (List.all_eq_true.mp hall) b[i] hmem
    rw [← cellAt_eq_getElem hi, hci] at this
    simp at this
  simp [checkTicTacToeWin, hfs, hfull]

/-! ### Shape of the state after one handler invocation -/

lemma handleStart_state {env : Env} {game? : Option GameState} {uid : Nat}
    {un : String} {args : List String} {s : String} {g : GameState}
    (h : (handleStart env game? uid un args s).1 = some g) :
    some g = game? ∨
      (g.currentPlayer = .X ∧ g.status = .pending ∧ g.board = List.replicate 9 none ∧
        g.playerX = { id := some uid, name := un } ∧ g.playerO.id = none) := by
  unfold handleStart at h
  split at h
  · exact Or.inl h.symm
  · split at h
    · exact Or.inl h.symm
    · dsimp only at h
      split at h
      · exact Or.inl h.symm
      · have hg := (Option.some.inj h).symm
        subst hg
        exact Or.inr ⟨rfl, rfl, rfl, rfl, rfl⟩

lemma handleAccept_state {env : Env} {game? : Option GameState} {uid : Nat}
    {un : String} {g : GameState}
    (h : (handleAccept env game? uid un).1 = some g) :
    some g = game? ∨
      ∃ g0, game? = some g0 ∧ g0.status = .pending ∧
        g = { g0 with playerO := { g0.playerO with id := some uid },
                      status := .active, messageId := some env.freshId } := by
  cases game? with
  | none => simp [handleAccept] at h
  | some g0 =>
      unfold handleAccept at h
      dsimp only at h
      split at h
      · exact Or.inl h.symm
      · split at h
        · exact Or.inl h.symm
        · split at h
          · exact Or.inl h.symm
          · rename_i hpend _ _
            refine Or.inr ⟨g0, rfl, by simpa using hpend, ?_⟩
            exact (Option.some.inj h).symm

lemma handleDecline_state {game? : Option GameState} {uid : Nat} {un : String}
    {g : GameState} (h : (handleDecline game? uid un).1 = some g) :
    some g = game? := by
  cases game? with
  | none => simp [handleDecline] at h
  | some g0 =>
      unfold handleDecline at h
      dsimp only at h
      split at h
      · exact h.symm
      · split at h
        · exact Option.noConfusion h
        · exact h.symm

lemma handleMove_state {env : Env} {g : GameState} {uid : Nat}
    {args : List String} {g2 : GameState}
    (h : (handleMove env g uid args).1 = some g2) :
    g2 = g ∨
      ∃ idx, idx ≤ 8 ∧ cellAt g.board idx = none ∧
        checkTicTacToeWin (g.board.set idx (some g.currentPlayer)) = none ∧
        ∃ mid, g2 = { g with board := g.board.set idx (some g.currentPlayer),
                             currentPlayer := g.currentPlayer.other,
                             messageId := mid } := by
  unfold handleMove at h
  split at h
  · exact Or.inl (Option.some.inj h).symm
  · split at h
    · exact Or.inl (Option.some.inj h).symm
    · rename_i v hveq
      split at h
      · exact Or.inl (Option.some.inj h).symm
      · rename_i hrange
        dsimp only at h
        split at h
        · exact Or.inl (Option.some.inj h).symm
        · rename_i hcell
          split at h
          · exact Option.noConfusion h
          · rename_i hwin
            refine Or.inr ⟨v.toNat - 1, ?_, ?_, hwin, _, (Option.some.inj h).symm⟩
            · rw [not_or] at hrange
              omega
            · simpa using hcell

lemma handleQuit_state {g : GameState} {uid : Nat} {un : String} {g2 : GameState}
    (h : (handleQuit g uid un).1 = some g2) : g2 = g := by
  unfold handleQuit at h
  split at h
  · exact Option.noConfusion h
  · exact (Option.some.inj h).symm

lemma handleStatus_state {env : Env} {g : GameState} {g2 : GameState}
    (h : (handleStatus env g).1 = some g2) :
    ∃ mid, g2 = { g with messageId := mid } := by
  unfold handleStatus at h
  split at h
  · exact ⟨_, (Option.some.inj h).symm⟩
  · split at h
    · exact ⟨g.messageId, by rw [← Option.some.inj h]⟩
    · exact ⟨g.messageId, by rw [← Option.some.inj h]⟩

/-- Every handler invocation leaves the stored game unchanged, changes only
the stored message id, creates a fresh pending challenge (possible only when
no non-ended game is stored), promotes a pending challenge to active, or
plays a non-terminal move on an active game. -/
lemma handleTicTacToe_state {env : Env} {s : Option GameState} {uid : Nat}
    {un : String} {args : List String} {g2 : GameState}
    (h : (handleTicTacToe env s uid un args).1 = some g2) :
    some g2 = s ∨
    (∃ g mid, s = some g ∧ g2 = { g with messageId := mid }) ∨
    (notEnded s = false ∧ g2.currentPlayer = .X ∧ g2.status = .pending ∧
      g2.board = List.replicate 9 none ∧
      g2.playerX = { id := some uid, name := un } ∧ g2.playerO.id = none) ∨
    (∃ g, s = some g ∧ g.status = .pending ∧
      g2 = { g with playerO := { g.playerO with id := some uid },
                    status := .active, messageId := some env.freshId }) ∨
    (∃ g idx mid, s = some g ∧ g.status = .active ∧ idx ≤ 8 ∧
      cellAt g.board idx = none ∧
      checkTicTacToeWin (g.board.set idx (some g.currentPlayer)) = none ∧
      g2 = { g with board := g.board.set idx (some g.currentPlayer),
                    currentPlayer := g.currentPlayer.other, messageId := mid }) := by
  unfold handleTicTacToe at h
  dsimp only at h
  split at h
  · rename_i hcond
    rcases handleStart_state h with h1 | h1
    · exact Or.inl h1
    · refine Or.inr (Or.inr (Or.inl ⟨?_, h1.1, h1.2.1, h1.2.2.1, h1.2.2.2.1, h1.2.2.2.2⟩))
      simpa using hcond.2
  · split at h
    · rcases handleAccept_state h with h1 | h1
      · exact Or.inl h1
      · obtain ⟨g0, hg0, hpend, hg2⟩ := h1
        exact Or.inr (Or.inr (Or.inr (Or.inl ⟨g0, hg0, hpend, hg2⟩)))
    · split at h
      · exact Or.inl (handleDecline_state h)
      · cases s with
        | none => exact Option.noConfusion h
        | some g =>
            dsimp only at h
            split at h
            · exact Or.inl (Option.some.inj h ▸ rfl)
            · rename_i hact
              have hgact : g.status = .active := not_ne_iff.mp hact
              split at h
              · rcases handleMove_state h with h1 | h1
                · exact Or.inl (by rw [h1])
                · obtain ⟨idx, hidx, hcell, hwin, mid, hg2⟩ := h1
                  exact Or.inr (Or.inr (Or.inr (Or.inr
                    ⟨g, idx, mid, rfl, hgact, hidx, hcell, hwin, hg2⟩)))
              · split at h
                · exact Or.inl (by rw [handleQuit_state h])
                · obtain ⟨mid, hg2⟩ := handleStatus_state h
                  exact Or.inr (Or.inl ⟨g, mid, rfl, hg2⟩)

/-! ### Dispatch lemmas for specific sub-commands -/

lemma subCommandOf_move (rest : List String) :
    subCommandOf ("move" :: rest) = some "move" := rfl

lemma handleTicTacToe_move_eq {env : Env} {g : GameState} {uid : Nat}
    {un : String} (rest : List String) (hact : g.status = .active) :
    handleTicTacToe env (some g) uid un ("move" :: rest) =
      handleMove env g uid ("move" :: rest) := by
  unfold handleTicTacToe
  rw [subCommandOf_move]
  have h1 : isStartSub (some "move") = false := by decide
  simp [h1, hact]

lemma handleTicTacToe_accept_eq {env : Env} {s : Option GameState} {uid : Nat}
    {un : String} :
    handleTicTacToe env s uid un ["accept"] = handleAccept env s uid un := by
  unfold handleTicTacToe
  have hsub : subCommandOf ["accept"] = some "accept" := rfl
  rw [hsub]
  have h1 : isStartSub (some "accept") = false := by decide
  simp [h1]

lemma handleTicTacToe_quit_eq {env : Env} {g : GameState} {uid : Nat}
    {un : String} (hact : g.status = .active) :
    handleTicTacToe env (some g) uid un ["quit"] = handleQuit g uid un := by
  unfold handleTicTacToe
  have hsub : subCommandOf ["quit"] = some "quit" := rfl
  rw [hsub]
  have h1 : isStartSub (some "quit") = false := by decide
  simp [h1, hact]

/-! ### Claim C1 -/

/-- C1: the win/draw evaluator is a pure function of the board (evaluating
the same board twice yields the same result); a board with three identical
non-empty marks along one of the 8 fixed triples — and no triple of the other
mark, which holds on every board the game ever evaluates — yields that mark as
the winner, even when all nine cells are occupied, so the winner result takes
priority over the draw condition; a board with no triple and at least one
empty cell among the nine yields no result. -/
theorem C1_checkTicTacToeWin_spec (b : Board) (hb : b.length = 9) :
    (checkTicTacToeWin b = checkTicTacToeWin b) ∧
    (∀ m : Mark, hasTriple b m = true → hasTriple b m.other = false →
      checkTicTacToeWin b = some (.winner m)) ∧
    (hasTriple b Mark.X = false → hasTriple b Mark.O = false →
      (∃ i, i < 9 ∧ cellAt b i = none) → checkTicTacToeWin b = none) :=
  ⟨rfl, fun _ hm hother => checkWin_of_triple hm hother,
   fun hx ho he => checkWin_of_no_triple hb hx ho he⟩

/-- Witness for C1: the full board with an X triple evaluates to an X win
(win takes priority over draw). -/
theorem C1_witness :
    boardFullXWins.length = 9 ∧ hasTriple boardFullXWins Mark.X = true ∧
      checkTicTacToeWin boardFullXWins = some (.winner .X) :=
  ⟨by decide, by decide,
    (C1_checkTicTacToeWin_spec boardFullXWins (by decide)).2.1 Mark.X
      (by decide) (by decide)⟩

/-! ### Claim C2 -/

/-- C2: the mark to move alternates strictly — a newly created game (the only
way a handler invocation can produce a stored game out of an empty table) has
`currentPlayer = X`, and an accepted non-terminal move on an active game (the
only transition that changes the board while keeping the game stored) flips
`currentPlayer` to the other mark. -/
theorem C2_currentMark_alternates (env : Env) (uid : Nat) (un : String)
    (args : List String) (g g2 : GameState) :
    ((handleTicTacToe env none uid un args).1 = some g → g.currentPlayer = .X) ∧
    (g.status = .active → (handleTicTacToe env (some g) uid un args).1 = some g2 →
      g2.board ≠ g.board → g2.currentPlayer = g.currentPlayer.other) := by
  constructor
  · intro h
    rcases handleTicTacToe_state h with h1 | h1 | h1 | h1 | h1
    · exact Option.noConfusion h1
    · obtain ⟨g0, _, hg0, _⟩ := h1
      exact Option.noConfusion hg0
    · exact h1.2.1
    · obtain ⟨g0, hg0, _⟩ := h1
      exact Option.noConfusion hg0
    · obtain ⟨g0, _, _, hg0, _⟩ := h1
      exact Option.noConfusion hg0
  · intro hact h hboard
    rcases handleTicTacToe_state h with h1 | h1 | h1 | h1 | h1
    · obtain rfl := Option.some.inj h1
      exact absurd rfl hboard
    · obtain ⟨g0, mid, hg0, hg2⟩ := h1
      obtain rfl := Option.some.inj hg0
      rw [hg2] at hboard
      exact absurd rfl hboard
    · have : g.status = .ended := by simpa [notEnded] using h1.1
      rw [hact] at this
      exact GStatus.noConfusion this
    · obtain ⟨g0, hg0, hpend, _⟩ := h1
      obtain rfl := Option.some.inj hg0
      rw [hact] at hpend
      exact GStatus.noConfusion hpend
    · obtain ⟨g0, idx, mid, hg0, _, _, _, _, hg2⟩ := h1
      obtain rfl := Option.some.inj hg0
      rw [hg2]

/-- Witness for C2: creating a challenge yields a game with X to move, and
alice's accepted move on the fresh active game flips the mark to O. -/
theorem C2_witness :
    gameCreated.currentPlayer = .X ∧ gameMoved.currentPlayer = Mark.X.other :=
  ⟨(C2_currentMark_alternates envW 1 "alice" ["@bob"] gameCreated gameCreated).1
      (by decide),
   (C2_currentMark_alternates envW 1 "alice" ["move", "5"] gameActive gameMoved).2
      (by decide) (by decide) (by decide)⟩

/-! ### Claim C3 -/

lemma handleTicTacToe_none_move (env : Env) (uid : Nat) (un : String)
    (rest : List String) :
    handleTicTacToe env none uid un ("move" :: rest) =
      (none, [.send .noActiveGame]) := by
  unfold handleTicTacToe
  rw [subCommandOf_move]
  have h1 : isStartSub (some "move") = false := by decide
  simp [h1]

lemma handleTicTacToe_none_bare (env : Env) (uid : Nat) (un : String) :
    handleTicTacToe env none uid un [] = (none, [.send .noActiveGame]) := rfl

/-- C3: a move that reaches a terminal result (win or draw) renders the final
board (edit-preferred through `renderUpdate`) and removes the conversation's
game record, and out of the empty record every subsequent move or bare status
command replies that no active game exists. -/
theorem C3_terminal_move_removes_game (env env2 : Env) (g : GameState)
    (uid uid2 : Nat) (un un2 : String) (arg : String) (rest : List String)
    (v : Int) (w : WinResult)
    (hact : g.status = .active)
    (hturn : (slotOf g g.currentPlayer).id = some uid)
    (hv : jsParseInt arg = some v) (hlo : 1 ≤ v) (hhi : v ≤ 9)
    (hempty : cellAt g.board (v.toNat - 1) = none)
    (hwin : checkTicTacToeWin (g.board.set (v.toNat - 1) (some g.currentPlayer)) =
      some w) :
    handleTicTacToe env (some g) uid un ["move", arg] =
      (none, (renderUpdate env g.messageId
        (.moveRender (g.board.set (v.toNat - 1) (some g.currentPlayer))
          (winOutcome g w))).2) ∧
    handleTicTacToe env2 none uid2 un2 ("move" :: rest) =
      (none, [.send .noActiveGame]) ∧
    handleTicTacToe env2 none uid2 un2 [] = (none, [.send .noActiveGame]) := by
  refine ⟨?_, handleTicTacToe_none_move env2 uid2 un2 rest,
    handleTicTacToe_none_bare env2 uid2 un2⟩
  rw [handleTicTacToe_move_eq _ hact]
  unfold handleMove
  have hp : parsedCell ["move", arg] = some v := by simpa [parsedCell] using hv
  rw [if_neg (by simp [hturn])]
  rw [hp]
  dsimp only
  rw [if_neg (by omega)]
  rw [if_neg (by simp [hempty])]
  rw [hwin]

/-- Witness for C3: alice completes the top row on `gameNearWin`; the game
record is gone and a later move command finds no game. -/
theorem C3_witness :
    (handleTicTacToe envW (some gameNearWin) 1 "alice" ["move", "3"]).1 = none ∧
    handleTicTacToe envW none 1 "alice" ["move", "5"] =
      (none, [.send .noActiveGame]) :=
  ⟨congrArg Prod.fst
    (C3_terminal_move_removes_game envW envW gameNearWin 1 1 "alice" "alice" "3"
      ["5"] 3 (.winner .X) (by decide) (by decide) (by decide) (by decide)
      (by decide) (by decide) (by decide)).1,
   (C3_terminal_move_removes_game envW envW gameNearWin 1 1 "alice" "alice" "3"
      ["5"] 3 (.winner .X) (by decide) (by decide) (by decide) (by decide)
      (by decide) (by decide) (by decide)).2.1⟩

/-! ### Claim C4 -/

/-- Counterexample to C4 as stated: in the pending game `gamePending` the
challenger alice (bound to the X slot, id 1) issues `quit`; the game is NOT
removed — the guard of src/index.js line 367 rejects the command with the
no-active-game reply before the quit branch is reached, and the record is
unchanged. -/
theorem C4_counterexample :
    handleTicTacToe envW (some gamePending) 1 "alice" ["quit"] =
      (some gamePending, [.send .noActiveGame]) := by decide

/-- C4 amended: quit removes the game only when it is active — a quit from a
bound player of an active game (the X player by id, or the O player by a
non-zero bound id) removes the record, while a quit during a pending game is
rejected with the no-active-game reply and the record is kept. -/
theorem C4_quit_only_active (env : Env) (g : GameState) (uid : Nat)
    (un : String) :
    (g.status = .active →
      (g.playerX.id = some uid ∨ (g.playerO.id = some uid ∧ uid ≠ 0)) →
      (handleTicTacToe env (some g) uid un ["quit"]).1 = none) ∧
    (g.status = .pending →
      handleTicTacToe env (some g) uid un ["quit"] =
        (some g, [.send .noActiveGame])) := by
  constructor
  · intro hact hb
    rw [handleTicTacToe_quit_eq hact]
    unfold handleQuit
    have hcond : g.playerX.id = some uid ∨ oSlotBoundTo g.playerO.id uid = true := by
      rcases hb with h | ⟨h, hnz⟩
      · exact Or.inl h
      · right
        rw [h]
        simp [oSlotBoundTo, hnz]
    rw [if_pos hcond]
  · intro hpend
    unfold handleTicTacToe
    have hsub : subCommandOf ["quit"] = some "quit" := rfl
    rw [hsub]
    have h1 : isStartSub (some "quit") = false := by decide
    simp [h1, hpend]

/-- Witness for C4 (amended): bob, bound to the O slot with id 2, quits the
active game and the record is removed. -/
theorem C4_witness :
    (handleTicTacToe envW (some gameActive) 2 "bob" ["quit"]).1 = none :=
  (C4_quit_only_active envW gameActive 2 "bob").1 (by decide)
    (Or.inr ⟨by decide, by decide⟩)

/-! ### Claim C5 -/

/-- C5: evaluation at the failing input — a bare `.ttt` status query on a
pending game replies "no active game" and leaves the record unchanged; the
waiting-notice branch of src/index.js lines 445-447 is never reached because
the guard at line 367 returns first for any non-active game. -/
theorem C5_pending_status_eval :
    handleTicTacToe envW (some gamePending) 5 "carol" [] =
      (some gamePending, [.send .noActiveGame]) ∧
    (handleTicTacToe envW (some gamePending) 5 "carol" []).2 ≠
      [.send (.pendingNotice "bob")] :=
  ⟨by decide, by decide⟩

/-! ### Claim C6 -/

/-- C6: evaluation at the failing inputs — issuing a new challenge while a
pending (resp. active) game exists for the conversation creates no game and
leaves the stored record unchanged, but the reply is the no-active-game
message (resp. a render of the current board status), never the
game-already-in-progress message of src/index.js line 297, whose guard on
line 295 makes it unreachable. -/
theorem C6_new_challenge_eval :
    handleTicTacToe envW (some gamePending) 7 "carol" ["@dave"] =
      (some gamePending, [.send .noActiveGame]) ∧
    handleTicTacToe envW (some gameActive) 7 "carol" ["@dave"] =
      (some gameActive,
        [.edit 10 (.statusRender gameActive.board "alice" .X)]) ∧
    (handleTicTacToe envW (some gamePending) 7 "carol" ["@dave"]).2 ≠
      [.send .gameAlreadyInProgress] ∧
    (handleTicTacToe envW (some gameActive) 7 "carol" ["@dave"]).2 ≠
      [.send .gameAlreadyInProgress] :=
  ⟨by decide, by decide, by decide, by decide⟩

/-! ### Claim C7 -/

lemma cellAt_set_ne (b : Board) (i j : Nat) (c : Cell) (h : j ≠ i) :
    cellAt (b.set j c) i = cellAt b i := by
  simp [cellAt, List.getD_eq_getElem?_getD, List.getElem?_set_ne h]

/-- A move command from the player holding the turn whose argument does not
parse, parses outside 1-9, or targets an occupied cell replies invalid-move
and returns the state unchanged (src/index.js lines 377-381). -/
lemma move_invalid_eq {env : Env} {g : GameState} {uid : Nat} {un arg : String}
    (hact : g.status = .active)
    (hturn : (slotOf g g.currentPlayer).id = some uid)
    (hbad : jsParseInt arg = none ∨
      (∃ v, jsParseInt arg = some v ∧ (v < 1 ∨ 9 < v)) ∨
      (∃ v, jsParseInt arg = some v ∧ 1 ≤ v ∧ v ≤ 9 ∧
        (cellAt g.board (v.toNat - 1)).isSome = true)) :
    handleTicTacToe env (some g) uid un ["move", arg] =
      (some g, [.send .invalidMove]) := by
  rw [handleTicTacToe_move_eq _ hact]
  unfold handleMove
  rw [if_neg (by simp [hturn])]
  rcases hbad with hp | ⟨v, hp, hr⟩ | ⟨v, hp, h1, h9, hocc⟩
  · rw [show parsedCell ["move", arg] = none from by simpa [parsedCell] using hp]
  · rw [show parsedCell ["move", arg] = some v from by simpa [parsedCell] using hp]
    dsimp only
    rw [if_pos hr]
  · rw [show parsedCell ["move", arg] = some v from by simpa [parsedCell] using hp]
    dsimp only
    rw [if_neg (by omega), if_pos hocc]

/-- C7: in an active game, a move by the player holding the turn whose
argument does not parse as a number, parses outside 1-9, or targets an
occupied cell is rejected with the invalid-move reply and changes nothing;
and no move command on an active game ever changes an occupied cell of the
stored record, so an occupied cell can never be overwritten. -/
theorem C7_invalid_move_rejected (env : Env) (g : GameState) (uid uid2 : Nat)
    (un un2 arg arg2 : String) (g2 : GameState)
    (hact : g.status = .active)
    (hturn : (slotOf g g.currentPlayer).id = some uid) :
    ((jsParseInt arg = none ∨
      (∃ v, jsParseInt arg = some v ∧ (v < 1 ∨ 9 < v)) ∨
      (∃ v, jsParseInt arg = some v ∧ 1 ≤ v ∧ v ≤ 9 ∧
        (cellAt g.board (v.toNat - 1)).isSome = true)) →
      handleTicTacToe env (some g) uid un ["move", arg] =
        (some g, [.send .invalidMove])) ∧
    ((handleTicTacToe env (some g) uid2 un2 ["move", arg2]).1 = some g2 →
      ∀ i, (cellAt g.board i).isSome = true →
        cellAt g2.board i = cellAt g.board i) := by
  constructor
  · exact fun hbad => move_invalid_eq hact hturn hbad
  · intro h i hocc
    rcases handleTicTacToe_state h with h1 | h1 | h1 | h1 | h1
    · obtain rfl := Option.some.inj h1
      rfl
    · obtain ⟨g0, mid, hg0, hg2⟩ := h1
      obtain rfl := Option.some.inj hg0
      rw [hg2]
    · have : g.status = .ended := by simpa [notEnded] using h1.1
      rw [hact] at this
      exact GStatus.noConfusion this
    · obtain ⟨g0, hg0, hpend, _⟩ := h1
      obtain rfl := Option.some.inj hg0
      rw [hact] at hpend
      exact GStatus.noConfusion hpend
    · obtain ⟨g0, idx, mid, hg0, _, _, hcell, _, hg2⟩ := h1
      obtain rfl := Option.some.inj hg0
      have hne : idx ≠ i := by
        intro he
        rw [he] at hcell
        rw [hcell] at hocc
        simp at hocc
      rw [hg2]
      exact cellAt_set_ne g.board i idx (some g.currentPlayer) hne

/-- Witness for C7: alice, holding the turn in `gameNearWin`, tries to move
to the occupied cell 1; the handler replies invalid-move and nothing changes,
and cell 1 keeps its mark. -/
theorem C7_witness :
    handleTicTacToe envW (some gameNearWin) 1 "alice" ["move", "1"] =
      (some gameNearWin, [.send .invalidMove]) ∧
    cellAt gameNearWin.board 0 = cellAt gameNearWin.board 0 :=
  ⟨(C7_invalid_move_rejected envW gameNearWin 1 1 "alice" "alice" "1" "1"
      gameNearWin (by decide) (by decide)).1
      (Or.inr (Or.inr ⟨1, by decide, by decide, by decide, by decide⟩)),
   (C7_invalid_move_rejected envW gameNearWin 1 1 "alice" "alice" "1" "1"
      gameNearWin (by decide) (by decide)).2 (by decide) 0 (by decide)⟩

/-! ### Claim C8 -/

/-- Counterexample to C8 as stated: alice (id 1), the challenge-issuing
identity of `gamePending`, tries to accept her own challenge while her
display name "alice" does not match the challenged name "bob"; the reply is
the not-the-challenged-player message of src/index.js line 334 (whose name
check runs before the challenger check of line 338), not
ChallengerCannotAccept. -/
theorem C8_counterexample :
    handleTicTacToe envW (some gamePending) 1 "alice" ["accept"] =
      (some gamePending, [.send .notTheChallengedPlayer]) ∧
    (handleTicTacToe envW (some gamePending) 1 "alice" ["accept"]).2 ≠
      [.send .challengerCannotAccept] :=
  ⟨by decide, by decide⟩

/-- C8 amended: an accept attempt by the identity that issued the challenge
always fails and leaves the pending game unchanged (still pending, O slot
identity unbound as before); the reply is the challenger-cannot-accept
message of src/index.js line 339 exactly when the accepter's display name
case-insensitively matches the challenged name, and the
not-the-challenged-player message of line 334 otherwise, because the name
check at line 333 runs first. -/
theorem C8_challenger_accept_rejected (env : Env) (g : GameState) (uid : Nat)
    (un : String) (hpend : g.status = .pending)
    (hx : g.playerX.id = some uid) :
    (handleTicTacToe env (some g) uid un ["accept"]).1 = some g ∧
    (jsToLower g.playerO.name = jsToLower un →
      handleTicTacToe env (some g) uid un ["accept"] =
        (some g, [.send .challengerCannotAccept])) ∧
    (jsToLower g.playerO.name ≠ jsToLower un →
      handleTicTacToe env (some g) uid un ["accept"] =
        (some g, [.send .notTheChallengedPlayer])) := by
  rw [handleTicTacToe_accept_eq]
  refine ⟨?_, ?_, ?_⟩
  · unfold handleAccept
    dsimp only
    rw [if_neg (by simp [hpend])]
    by_cases hn : jsToLower g.playerO.name ≠ jsToLower un
    · rw [if_pos hn]
    · rw [if_neg hn, if_pos hx]
  · intro hname
    unfold handleAccept
    dsimp only
    rw [if_neg (by simp [hpend]), if_neg (by simp [hname]), if_pos hx]
  · intro hname
    unfold handleAccept
    dsimp only
    rw [if_neg (by simp [hpend]), if_pos hname]

/-- Witness for C8 (amended): alice (id 1) renamed to "Bob" —
case-insensitively matching the challenged name "bob" — still cannot accept
her own challenge and gets the challenger-cannot-accept reply. -/
theorem C8_witness :
    (handleTicTacToe envW (some gamePending) 1 "Bob" ["accept"]).1 =
      some gamePending ∧
    handleTicTacToe envW (some gamePending) 1 "Bob" ["accept"] =
      (some gamePending, [.send .challengerCannotAccept]) :=
  ⟨(C8_challenger_accept_rejected envW gamePending 1 "Bob" (by decide)
      (by decide)).1,
   (C8_challenger_accept_rejected envW gamePending 1 "Bob" (by decide)
      (by decide)).2.1 (by decide)⟩

/-! ### Claim C9 -/

lemma countM_replicate_none (n : Nat) (m : Mark) :
    countM (List.replicate n none) m = 0 := by
  induction n with
  | zero => rfl
  | succ k ih => simp [countM, List.replicate, List.count_cons] at ih ⊢; exact ih

lemma countM_set (b : Board) (i : Nat) (m m2 : Mark) (hi : i < b.length)
    (he : cellAt b i = none) :
    countM (b.set i (some m)) m2 = countM b m2 + (if m2 = m then 1 else 0) := by
  induction b generalizing i with
  | nil => simp at hi
  | cons c t ih =>
      cases i with
      | zero =>
          have hc : c = none := by simpa [cellAt] using he
          subst hc
          by_cases hm : m2 = m <;>
            simp [countM, List.count_cons, hm]
      | succ n =>
          have hi2 : n < t.length := by simpa using hi
          have he2 : cellAt t n = none := by simpa [cellAt] using he
          have ihn := ih n hi2 he2
          simp only [List.set_cons_succ, countM, List.count_cons] at ihn ⊢
          omega

lemma goodState_step {env : Env} {uid : Nat} {un : String} {args : List String}
    {s : Option GameState} {g2 : GameState}
    (hs : ∀ g, s = some g → GoodState g)
    (h : (handleTicTacToe env s uid un args).1 = some g2) : GoodState g2 := by
  rcases handleTicTacToe_state h with h1 | h1 | h1 | h1 | h1
  · exact hs g2 h1.symm
  · obtain ⟨g, mid, rfl, hg2⟩ := h1
    obtain ⟨ha, hb, hc, hd, he, hf⟩ := hs g rfl
    subst hg2
    exact ⟨ha, hb, hc, hd, he, hf⟩
  · obtain ⟨-, hcp, hst, hb, -, -⟩ := h1
    refine ⟨by rw [hb]; simp, by rw [hst]; simp, fun _ => hb, ?_, ?_, fun _ => hcp⟩
    · intro _
      rw [hb, countM_replicate_none, countM_replicate_none]
    · intro hO
      rw [hcp] at hO
      exact Mark.noConfusion hO
  · obtain ⟨g, rfl, hpend, hg2⟩ := h1
    obtain ⟨ha, hb, hc, hd, he, hf⟩ := hs g rfl
    have hboard := hc hpend
    subst hg2
    refine ⟨ha, ?_, ?_, hd, he, ?_⟩
    · intro hcon
      exact GStatus.noConfusion hcon
    · intro hcon
      exact GStatus.noConfusion hcon
    · intro hcon
      exact GStatus.noConfusion hcon
  · obtain ⟨g, idx, mid, rfl, hgact, hidx, hcell, -, hg2⟩ := h1
    obtain ⟨ha, hb, hc, hd, he, hf⟩ := hs g rfl
    have hlt : idx < g.board.length := by omega
    have hX := countM_set g.board idx g.currentPlayer Mark.X hlt hcell
    have hO := countM_set g.board idx g.currentPlayer Mark.O hlt hcell
    subst hg2
    refine ⟨by simpa using ha, ?_, ?_, ?_, ?_, ?_⟩
    · show g.status ≠ .ended
      rw [hgact]
      exact fun hcon => GStatus.noConfusion hcon
    · intro hp
      show g.board.set idx (some g.currentPlayer) = List.replicate 9 none
      rw [show g.status = GStatus.pending from hp] at hgact
      exact GStatus.noConfusion hgact
    · intro hcp2
      have hcp2a : Mark.other g.currentPlayer = .X := hcp2
      cases hcpv : g.currentPlayer with
      | X =>
          rw [hcpv] at hcp2a
          exact absurd hcp2a (by decide)
      | O =>
          rw [hcpv] at hX hO
          have hcnt := he hcpv
          simp at hX hO
          dsimp only
          omega
    · intro hcp2
      have hcp2a : Mark.other g.currentPlayer = .O := hcp2
      cases hcpv : g.currentPlayer with
      | O =>
          rw [hcpv] at hcp2a
          exact absurd hcp2a (by decide)
      | X =>
          rw [hcpv] at hX hO
          have hcnt := hd hcpv
          simp at hX hO
          dsimp only
          omega
    · intro hp
      show g.currentPlayer.other = .X
      rw [show g.status = GStatus.pending from hp] at hgact
      exact GStatus.noConfusion hgact

/-- Every reachable stored game satisfies the inductive invariant. -/
lemma reachable_goodState {s : Option GameState} (h : TTTReachable s) :
    ∀ g, s = some g → GoodState g := by
  induction h with
  | init => intro g hg; exact Option.noConfusion hg
  | step s env uid un args _ ih => intro g hg; exact goodState_step ih hg

/-- C9: in every reachable game state, every occupied cell holds X or O, the
number of X cells minus the number of O cells is 0 or 1, and a pending game
has an all-empty board. -/
theorem C9_board_invariant (s : Option GameState) (g : GameState)
    (h : TTTReachable s) (hg : s = some g) :
    (∀ i, cellAt g.board i = none ∨ cellAt g.board i = some .X ∨
      cellAt g.board i = some .O) ∧
    (countM g.board .X = countM g.board .O ∨
      countM g.board .X = countM g.board .O + 1) ∧
    (g.status = .pending → g.board = List.replicate 9 none) := by
  obtain ⟨-, -, hpend, hX, hO, -⟩ := reachable_goodState h g hg
  refine ⟨?_, ?_, hpend⟩
  · intro i
    cases hc : cellAt g.board i with
    | none => exact Or.inl rfl
    | some m =>
        cases m
        · exact Or.inr (Or.inl rfl)
        · exact Or.inr (Or.inr rfl)
  · cases hcp : g.currentPlayer with
    | X => exact Or.inl (hX hcp)
    | O => exact Or.inr (hO hcp)

/-- Witness for C9: the game reached by alice challenging bob out of the
empty table satisfies the invariant. -/
theorem C9_witness :
    countM gameCreated.board .X = countM gameCreated.board .O ∨
      countM gameCreated.board .X = countM gameCreated.board .O + 1 :=
  (C9_board_invariant _ gameCreated
    (TTTReachable.step none envW 1 "alice" ["@bob"] TTTReachable.init)
    (by decide)).2.1

/-! ### Claim C10 -/

lemma char_le_iff_toNat {a b : Char} : a ≤ b ↔ a.toNat ≤ b.toNat := Iff.rfl

lemma char_ne_of_toNat_ne {a b : Char} (h : a.toNat ≠ b.toNat) : a ≠ b :=
  fun he => h (congrArg Char.toNat he)

lemma digitVal10_digit {c : Char} (h1 : '0' ≤ c) (h2 : c ≤ '9') :
    digitVal 10 c = some (c.toNat - '0'.toNat) := by
  have e9 : ('9').toNat = 57 := by decide
  have ht2 : c.toNat ≤ 57 := by
    have := char_le_iff_toNat.mp h2
    omega
  have e0 : ('0').toNat = 48 := by decide
  unfold digitVal
  rw [if_pos ⟨h1, h2⟩]
  dsimp only
  rw [if_pos (by omega)]

lemma digitVal10_none {c : Char} (h : ¬('0' ≤ c ∧ c ≤ '9')) :
    digitVal 10 c = none := by
  unfold digitVal
  rw [if_neg h]
  by_cases ha : 'a' ≤ c ∧ c ≤ 'z'
  · rw [if_pos ha]
    dsimp only
    rw [if_neg (by omega)]
  · rw [if_neg ha]
    by_cases hA : 'A' ≤ c ∧ c ≤ 'Z'
    · rw [if_pos hA]
      dsimp only
      rw [if_neg (by omega)]
    · rw [if_neg hA]

lemma not_whitespace_of_digit {c : Char} (h : '0' ≤ c) :
    c.isWhitespace = false := by
  have e0 : ('0').toNat = 48 := by decide
  have h48 : 48 ≤ c.toNat := by
    have := char_le_iff_toNat.mp h
    omega
  simp only [Char.isWhitespace, Bool.or_eq_false_iff, decide_eq_false_iff_not]
  refine ⟨⟨⟨?_, ?_⟩, ?_⟩, ?_⟩ <;>
    exact fun he => absurd h48 (by rw [he]; decide)

/-- A string whose first character is a decimal digit 1-9 and whose remaining
characters are all non-digits parses, under JS `parseInt`, to the value of
that leading digit. -/
lemma jsParseInt_digit_lead {d : Char} {rest : List Char}
    (h1 : '1' ≤ d) (h9 : d ≤ '9')
    (hrest : ∀ c ∈ rest, ¬('0' ≤ c ∧ c ≤ '9')) :
    jsParseInt ⟨d :: rest⟩ = some ((d.toNat - '0'.toNat : Nat) : Int) := by
  have e0 : ('0').toNat = 48 := by decide
  have e1 : ('1').toNat = 49 := by decide
  have h49 : 49 ≤ d.toNat := by
    have := char_le_iff_toNat.mp h1
    omega
  have h0d : '0' ≤ d := char_le_iff_toNat.mpr (by omega)
  have hws : d.isWhitespace = false := not_whitespace_of_digit h0d
  have em : ('-').toNat = 45 := by decide
  have ep : ('+').toNat = 43 := by decide
  have hminus : d ≠ '-' := char_ne_of_toNat_ne (by omega)
  have hplus : d ≠ '+' := char_ne_of_toNat_ne (by omega)
  have hzero : d ≠ '0' := char_ne_of_toNat_ne (by omega)
  have hsign : stripSign (d :: rest) = (false, d :: rest) := by
    unfold stripSign
    dsimp only
    rw [if_neg hminus, if_neg hplus]
  have hhex : stripHexMark (d :: rest) = (10, d :: rest) := by
    cases rest with
    | nil => rfl
    | cons c1 r2 =>
        unfold stripHexMark
        dsimp only
        rw [if_neg (fun hc => hzero hc.1)]
  have hdigit : digitVal 10 d = some (d.toNat - ('0').toNat) :=
    digitVal10_digit h0d h9
  have htake : (d :: rest).takeWhile (fun c => (digitVal 10 c).isSome) = [d] := by
    cases rest with
    | nil => simp [List.takeWhile_cons, hdigit]
    | cons c1 r2 =>
        have hc1 : ¬('0' ≤ c1 ∧ c1 ≤ '9') := hrest c1 (by simp)
        simp [List.takeWhile_cons, hdigit, digitVal10_none hc1]
  simp only [jsParseInt, List.dropWhile_cons, hws, Bool.false_eq_true, if_false,
    hsign, hhex, htake, List.isEmpty_cons, List.foldl_cons, List.foldl_nil,
    hdigit, Option.getD_some, Nat.zero_mul, Nat.zero_add]

/-- Counterexample to C10 as stated: the argument "0x5" has no leading
decimal digit in 1-9 (its decimal prefix is the single digit 0, outside the
range), yet the move is accepted — `parseInt` reads the `0x` prefix as
hexadecimal, returns 5, and the handler plays cell 5. -/
theorem C10_counterexample :
    jsParseInt "0x5" = some 5 ∧
    (handleTicTacToe envW (some gameActive) 1 "alice" ["move", "0x5"]).1 =
      some gameMoved ∧
    (handleTicTacToe envW (some gameActive) 1 "alice" ["move", "0x5"]).2 ≠
      [.send .invalidMove] :=
  ⟨by decide, by decide, by decide⟩

/-- C10 amended: the move argument is parsed with JS `parseInt` semantics —
after an optional sign, a `0x`/`0X` prefix switches to hexadecimal, and
otherwise the longest leading run of decimal digits is taken.  Hence an
argument whose first character is a digit 1-9 and whose remaining characters
are non-digits parses to that digit and (when the cell is free, it is the
caller's turn, and the move is not terminal) is accepted as a move to that
cell, while an argument with no parseable prefix, or whose parsed value lies
outside 1-9, is rejected as an invalid move. -/
theorem C10_move_parsing (env : Env) (g : GameState) (uid : Nat)
    (un arg : String) (d : Char) (rest : List Char) (v : Int)
    (hlen : g.board.length = 9)
    (hact : g.status = .active)
    (hturn : (slotOf g g.currentPlayer).id = some uid) :
    (arg.data = d :: rest → '1' ≤ d → d ≤ '9' →
      (∀ c ∈ rest, ¬('0' ≤ c ∧ c ≤ '9')) →
      jsParseInt arg = some ((d.toNat - ('0').toNat : Nat) : Int)) ∧
    (jsParseInt arg = some v → 1 ≤ v → v ≤ 9 →
      cellAt g.board (v.toNat - 1) = none →
      checkTicTacToeWin (g.board.set (v.toNat - 1) (some g.currentPlayer)) =
        none →
      ∃ g2, (handleTicTacToe env (some g) uid un ["move", arg]).1 = some g2 ∧
        cellAt g2.board (v.toNat - 1) = some g.currentPlayer) ∧
    ((jsParseInt arg = none ∨ (jsParseInt arg = some v ∧ (v < 1 ∨ 9 < v))) →
      handleTicTacToe env (some g) uid un ["move", arg] =
        (some g, [.send .invalidMove])) := by
  refine ⟨?_, ?_, ?_⟩
  · intro hdata h1 h9 hrest
    obtain ⟨data⟩ := arg
    have hd : data = d :: rest := hdata
    subst hd
    exact jsParseInt_digit_lead h1 h9 hrest
  · intro hv hlo hhi hempty hwin
    rw [handleTicTacToe_move_eq _ hact]
    unfold handleMove
    rw [if_neg (by simp [hturn])]
    rw [show parsedCell ["move", arg] = some v from by simpa [parsedCell] using hv]
    dsimp only
    rw [if_neg (by omega)]
    rw [if_neg (by simp [hempty])]
    rw [hwin]
    refine ⟨_, rfl, ?_⟩
    have hlt : v.toNat - 1 < g.board.length := by omega
    simp [cellAt, List.getD_eq_getElem?_getD, List.getElem?_set_self hlt]
  · intro hbad
    apply move_invalid_eq hact hturn
    rcases hbad with h | ⟨hv2, hr⟩
    · exact Or.inl h
    · exact Or.inr (Or.inl ⟨v, hv2, hr⟩)

/-- Witness for C10 (amended): "5abc" parses to 5 and is accepted as a move
to cell 5, while "abc" is rejected as an invalid move. -/
theorem C10_witness :
    jsParseInt "5abc" = some 5 ∧
    (∃ g2, (handleTicTacToe envW (some gameActive) 1 "alice"
      ["move", "5abc"]).1 = some g2 ∧
      cellAt g2.board 4 = some gameActive.currentPlayer) ∧
    handleTicTacToe envW (some gameActive) 1 "alice" ["move", "abc"] =
      (some gameActive, [.send .invalidMove]) :=
  ⟨(C10_move_parsing envW gameActive 1 "alice" "5abc" '5' "abc".data 5
      (by decide) (by decide) (by decide)).1 (by decide) (by decide)
      (by decide) (by decide),
   (C10_move_parsing envW gameActive 1 "alice" "5abc" '5' "abc".data 5
      (by decide) (by decide) (by decide)).2.1 (by decide) (by decide)
      (by decide) (by decide) (by decide),
   (C10_move_parsing envW gameActive 1 "alice" "abc" 'x' [] 0
      (by decide) (by decide) (by decide)).2.2 (Or.inl (by decide))⟩

end TTTBot
